import Mathlib

/-!
Verification of the turtle-soup deduction-game engine: response
normalization, guess judgment, utterance classification, the game
coordinator loop, and the post-game evaluator.  Text is modelled as
`List Char`; Python's substring test (`in`), `str.strip`, `str.lower`,
`str.startswith` and dictionary insertion are given explicit executable
definitions, and the engine's functions are translated over them.
-/


/-- Text is a list of characters. -/
abbrev Text := List Char

/-- Python substring containment: `pat in s`.  An empty pattern is
contained in every string. -/
def containsSub : Text → Text → Bool
  | pat, [] => pat.isEmpty
  | pat, s@(_ :: t) => pat.isPrefixOf s || containsSub pat t

/-- Python `str.strip` on the left: drop leading whitespace. -/
def stripLeft (t : Text) : Text := t.dropWhile Char.isWhitespace

/-- Python `str.strip`: drop leading and trailing whitespace. -/
def strip (t : Text) : Text :=
  ((stripLeft t).reverse.dropWhile Char.isWhitespace).reverse

/-- Python `str.lower` (ASCII letters; CJK characters are unaffected). -/
def lowerText (t : Text) : Text := t.map Char.toLower

/-- Marker "不相关" (irrelevant). -/
def kwIrr1 : Text := "不相关".toList

/-- Marker "无关" (unrelated). -/
def kwIrr2 : Text := "无关".toList

/-- Marker "不重要" (unimportant). -/
def kwIrr3 : Text := "不重要".toList

/-- Affirmative marker "是". -/
def kwShi : Text := "是".toList

/-- Case-insensitive affirmative marker "yes". -/
def kwYes : Text := "yes".toList

/-- Negative marker "否". -/
def kwFou : Text := "否".toList

/-- Case-insensitive negative marker "no". -/
def kwNo : Text := "no".toList

/-- Canonical irrelevant answer returned by the normalizer. -/
def ansIrrelevant : Text := "不相关".toList

/-- Canonical affirmative answer returned by the normalizer. -/
def ansYes : Text := "是".toList

/-- Canonical negative answer returned by the normalizer. -/
def ansNo : Text := "否".toList

/-- Test used by `HostAgent.normalize_answer`: the cleaned text contains
one of the three irrelevant markers. -/
def hasIrrelevantKw (t : Text) : Bool :=
  containsSub kwIrr1 t || containsSub kwIrr2 t || containsSub kwIrr3 t

/-- Test used by `HostAgent.normalize_answer`: the cleaned text contains
"是", or its lowercasing contains "yes". -/
def hasYesKw (t : Text) : Bool :=
  containsSub kwShi t || containsSub kwYes (lowerText t)

/-- Test used by `HostAgent.normalize_answer`: the cleaned text contains
"否", or its lowercasing contains "no". -/
def hasNoKw (t : Text) : Bool :=
  containsSub kwFou t || containsSub kwNo (lowerText t)

/-- `HostAgent.normalize_answer`: empty input is irrelevant; otherwise the
stripped text is checked for irrelevant markers, then affirmative markers,
then negative markers, defaulting to irrelevant. -/
def normalize_answer (response : Text) : Text :=
  if response.isEmpty then ansIrrelevant
  else if hasIrrelevantKw (strip response) then ansIrrelevant
  else if hasYesKw (strip response) then ansYes
  else if hasNoKw (strip response) then ansNo
  else ansIrrelevant

/-- Modelled from the spec's wording of the normalizer policy: empty or
whitespace-only input is irrelevant first, then the same marker cascade in
strict priority order.  Compared against `normalize_answer` (from the
source) in the claim theorem. -/
def spec_normalize (response : Text) : Text :=
  if strip response = [] then ansIrrelevant
  else if hasIrrelevantKw (strip response) then ansIrrelevant
  else if hasYesKw (strip response) then ansYes
  else if hasNoKw (strip response) then ansNo
  else ansIrrelevant

/-- Sample response containing an irrelevant marker and the affirmative
marker: the irrelevant check wins. -/
def sampleBothIrr : Text := "不相关，虽然看起来是".toList

/-- Sample response containing both the case-insensitive "yes" and the
negative marker "否": the affirmative check wins. -/
def sampleYesNeg : Text := "Yes, 否".toList

/-- Whitespace-only sample response. -/
def sampleWs : Text := "   ".toList

/-- `HostAgent.evaluate_guess`, after the model response comes back: the
normalized response collapses to "是" exactly when it is "是", and to "否"
otherwise. -/
def evaluate_guess (response : Text) : Text :=
  if normalize_answer response = ansYes then ansYes else ansNo

/-- Guess tag "[推理]". -/
def kwTagGuess : Text := "[推理]".toList

/-- Final-guess tag "[最终推理]". -/
def kwTagFinal : Text := "[最终推理]".toList

/-- The coordinator's utterance classification in `play_round`:
an utterance is a guess when it contains "[推理]" or "[最终推理]". -/
def isGuessUtt (u : Text) : Bool :=
  containsSub kwTagGuess u || containsSub kwTagFinal u

/-- Sample utterance with the guess tag in the middle of the text. -/
def sampleMidTag : Text := "我认为[推理]故事是这样的".toList

/- Python dictionary as an insertion-ordered association list: inserting an
existing key overwrites its value in place, a new key is appended. -/

/-- Python `d[k] = v` on an insertion-ordered dictionary. -/
def dictInsert {α : Type} (d : List (Text × α)) (k : Text) (v : α) :
    List (Text × α) :=
  if k ∈ d.map Prod.fst then d.map (fun p => if p.1 = k then (k, v) else p)
  else d ++ [(k, v)]

/- GameEvaluator.evaluate_question_coverage -/

/-- The covered test from `evaluate_question_coverage`:
`response.strip().startswith("是")`. -/
def coveredTest (response : Text) : Bool := kwShi.isPrefixOf (strip response)

/-- Result of `GameEvaluator.evaluate_question_coverage`; coverage details
map each key question to its covered flag and the raw judgment response. -/
structure CoverageEval where
  coverage_details : List (Text × (Bool × Text))
  covered_count : Nat
  total_key_questions : Nat
  coverage_rate : ℚ

/-- `GameEvaluator.evaluate_question_coverage`: one judgment request per
key question (the response of the i-th request is `judge i`), covered iff
the stripped response starts with "是"; the rate is covered over the
number of key questions, or 0 when there are none. -/
def evaluate_question_coverage (keyQs : List Text) (judge : Nat → Text) :
    CoverageEval :=
  let details := keyQs.enum.foldl
    (fun d p => dictInsert d p.2 (coveredTest (judge p.1), judge p.1)) []
  let covered := (details.filter (fun p => p.2.1)).length
  { coverage_details := details
    covered_count := covered
    total_key_questions := keyQs.length
    coverage_rate :=
      if keyQs.isEmpty then 0 else (covered : ℚ) / (keyQs.length : ℚ) }

/-- Sample judgment response whose stripped text does not start with "是"
although it contains "是" (normalizer-affirmative but not covered). -/
def sampleYesInside : Text := "答案是".toList

/-- Sample pair of key questions with distinct texts. -/
def sampleKeyQs : List Text := ["他死了吗".toList, "天气有关吗".toList]

/-- Sample judgment responses for `sampleKeyQs`: the first is affirmative
by prefix, the second is not. -/
def sampleJudge : Nat → Text :=
  fun i => if i = 0 then " 是，第2个问题覆盖".toList else "答案是".toList

/- GameEvaluator._parse_scores -/

/-- Digit run to a natural number (regex group `\d+` through `int`). -/
def digitsToNat (ds : Text) : Nat :=
  ds.foldl (fun acc c => acc * 10 + (c.toNat - 48)) 0

/-- Match one score pattern at the start of `s`: the label, one colon
(fullwidth or ASCII), any whitespace, at least one digit, then the
denominator text (the regex `label[：:]\s*(\d+)/den` anchored here). -/
def matchScoreAt (label denom s : Text) : Option Nat :=
  if label.isPrefixOf s then
    match s.drop label.length with
    | [] => none
    | c :: rest =>
      if c = '：' ∨ c = ':' then
        let rest2 := rest.dropWhile Char.isWhitespace
        let ds := rest2.takeWhile Char.isDigit
        if ds = [] then none
        else if denom.isPrefixOf (rest2.dropWhile Char.isDigit) then
          some (digitsToNat ds)
        else none
      else none
  else none

/-- Python `re.search` for one score pattern: try every start position,
leftmost match wins. -/
def searchScore (label denom : Text) : Text → Option Nat
  | [] => none
  | s@(_ :: t) =>
    match matchScoreAt label denom s with
    | some n => some n
    | none => searchScore label denom t

/-- Label "核心情节" (core plot). -/
def kwCorePlot : Text := "核心情节".toList

/-- Label "关键细节" (key details). -/
def kwKeyDetails : Text := "关键细节".toList

/-- Label "逻辑推理" (logical reasoning). -/
def kwLogicalReasoning : Text := "逻辑推理".toList

/-- Label "整体完整度" (completeness). -/
def kwCompleteness : Text := "整体完整度".toList

/-- Label "总体评分" (overall score). -/
def kwTotalScore : Text := "总体评分".toList

/-- Denominator "/10". -/
def kwSlash10 : Text := "/10".toList

/-- Denominator "/100". -/
def kwSlash100 : Text := "/100".toList

/-- Score record produced by `GameEvaluator._parse_scores`. -/
structure Scores where
  core_plot : Nat
  key_details : Nat
  logical_reasoning : Nat
  completeness : Nat
  score_total : Nat

/-- `GameEvaluator._parse_scores`: each of the five fields is matched by
its own pattern over the whole response, and an unmatched field is 0. -/
def parse_scores (response : Text) : Scores :=
  { core_plot := (searchScore kwCorePlot kwSlash10 response).getD 0
    key_details := (searchScore kwKeyDetails kwSlash10 response).getD 0
    logical_reasoning := (searchScore kwLogicalReasoning kwSlash10 response).getD 0
    completeness := (searchScore kwCompleteness kwSlash10 response).getD 0
    score_total := (searchScore kwTotalScore kwSlash100 response).getD 0 }

/-- Sample rubric response with the logical-reasoning line missing and the
other four lines present. -/
def sampleRubricNoLogic : Text :=
  "核心情节：8/10 - 基本正确\n关键细节：7/10 - 部分准确\n整体完整度：9/10 - 很完整\n总体评分：85/100".toList

/- TurtleSoupGame: construction and the game loop. -/

/-- One recorded round (the `round_info` dictionary of `play_round`). -/
structure RoundInfo where
  round : Nat
  player : Text
  question : Text
  answer : Text
  is_guess : Bool
  guess_correct : Bool
deriving DecidableEq

/-- The puzzle dictionary handed to the constructor; a `none` field models
a missing key (Python KeyError on access). -/
structure PuzzleData where
  index : Option Int
  surface : Option Text
  bottom : Option Text
  key_question : Option (List Text)
  story_tree : Option Text
deriving DecidableEq

/-- One entry of `players_config`. -/
structure PlayerConfig where
  name : Text
  strategy : Option Text
deriving DecidableEq

/-- The constructed game state that the claims depend on. -/
structure Game where
  surface : Text
  bottom : Text
  key_questions : List Text
  players : List Text
  max_rounds : Int
deriving DecidableEq

/-- Failure of `TurtleSoupGame.__init__` (KeyError on the puzzle dict). -/
inductive InitError where
  | missingField
deriving DecidableEq

/-- Failure while running the game (IndexError on the player list). -/
inductive RunError where
  | indexError
deriving DecidableEq

/-- Default player name "Player1". -/
def namePlayer1 : Text := "Player1".toList

/-- Default player name "Player2". -/
def namePlayer2 : Text := "Player2".toList

/-- Style keyword "systematic". -/
def styleSystematic : Text := "systematic".toList

/-- Style keyword "creative". -/
def styleCreative : Text := "creative".toList

/-- Default `players_config` used when none is given. -/
def defaultPlayersConfig : List PlayerConfig :=
  [⟨namePlayer1, some styleSystematic⟩, ⟨namePlayer2, some styleCreative⟩]

/-- `TurtleSoupGame.__init__` together with `HostAgent.__init__`: reads
surface, bottom, key_question and story_tree from the puzzle dictionary —
any missing key raises before a round can run — defaults the two-player
configuration, and performs no validation of max_rounds, participant
count, or name uniqueness. -/
def mkGame (pd : PuzzleData) (maxRounds : Int)
    (playersConfig : Option (List PlayerConfig)) : Except InitError Game :=
  match pd.surface, pd.bottom, pd.key_question, pd.story_tree with
  | some s, some b, some kq, some _ =>
    let cfg := playersConfig.getD defaultPlayersConfig
    .ok { surface := s, bottom := b, key_questions := kq,
          players := cfg.map PlayerConfig.name, max_rounds := maxRounds }
  | _, _, _, _ => .error .missingField

/-- The round record built by `play_round` at 0-based round index `cur`
for player `pname`, given the player's utterance `u` and the host model's
raw response `hostResp` for this round. -/
def mkRoundInfo (cur : Nat) (pname u hostResp : Text) : RoundInfo :=
  if isGuessUtt u then
    { round := cur + 1, player := pname, question := u,
      answer := evaluate_guess hostResp, is_guess := true,
      guess_correct := evaluate_guess hostResp == ansYes }
  else
    { round := cur + 1, player := pname, question := u,
      answer := normalize_answer hostResp, is_guess := false,
      guess_correct := false }

/-- The while loop of `run_game`: `cur` is `current_round`, `idx` the
active player index, `fuel` the remaining loop iterations.  `utt j` is the
utterance produced for round `j` and `hostResp j` the host model's raw
response in round `j`.  Returns the rounds appended to the game log, the
entries appended to the conversation history, and the winner with the
winning utterance when a guess was judged correct. -/
def runLoop (players : List Text) (utt hostResp : Nat → Text) :
    Nat → Nat → Nat →
      Except RunError (List RoundInfo × List RoundInfo × Option (Text × Text))
  | _, _, 0 => .ok ([], [], none)
  | cur, idx, fuel + 1 =>
    match players[idx]? with
    | none => .error .indexError
    | some pname =>
      let ri := mkRoundInfo cur pname (utt cur) (hostResp cur)
      if ri.is_guess && ri.guess_correct then
        .ok ([ri], [ri], some (pname, utt cur))
      else
        match runLoop players utt hostResp (cur + 1)
            ((idx + 1) % players.length) fuel with
        | .error e => .error e
        | .ok (rs, hist, w) => .ok (ri :: rs, ri :: hist, w)

/-- The game log fields mutated by `run_game` that the claims mention. -/
structure GameLog where
  rounds : List RoundInfo
  final_guesses : List (Text × Text)
  winner : Option Text
  total_rounds : Nat
  max_rounds : Int
deriving DecidableEq

/-- Notice stored for the winner when the winning utterance is falsy. -/
def winNotice : Text := "已在对局中猜中真相。".toList

/-- The end-of-game loop on the no-winner path: every player is asked in
configured order (`fg i` is the model's final guess for the i-th player)
and the answers land in the `final_guesses` dictionary keyed by name. -/
def finalGuessDict (players : List Text) (fg : Nat → Text) :
    List (Text × Text) :=
  players.enum.foldl (fun d p => dictInsert d p.2 (fg p.1)) []

/-- `TurtleSoupGame.run_game`: the main loop starting at round 0 and
player index 0 with `max_rounds` iterations available, then the end-of-game
branch on the truthiness of `winner` (None and the empty name are both
falsy), then `total_rounds` is set to the number of completed rounds.
Returns the game log and the conversation history. -/
def run_game (g : Game) (utt hostResp fg : Nat → Text) :
    Except RunError (GameLog × List RoundInfo) :=
  match runLoop g.players utt hostResp 0 0 g.max_rounds.toNat with
  | .error e => .error e
  | .ok (rs, hist, w) =>
    match w with
    | some (wname, cg) =>
      if wname = [] then
        .ok ({ rounds := rs, final_guesses := finalGuessDict g.players fg,
               winner := some wname, total_rounds := rs.length,
               max_rounds := g.max_rounds }, hist)
      else
        .ok ({ rounds := rs,
               final_guesses := [(wname, if cg = [] then winNotice else cg)],
               winner := some wname, total_rounds := rs.length,
               max_rounds := g.max_rounds }, hist)
    | none =>
      .ok ({ rounds := rs, final_guesses := finalGuessDict g.players fg,
             winner := none, total_rounds := rs.length,
             max_rounds := g.max_rounds }, hist)

/-- A round is a winning guess when the coordinator's break condition
fires on it. -/
def isWinningRound (r : RoundInfo) : Bool := r.is_guess && r.guess_correct

/-- The round at index `j` wins: the utterance carries a guess tag and the
host response normalizes to "是". -/
def winAt (utt hostResp : Nat → Text) (j : Nat) : Prop :=
  isGuessUtt (utt j) = true ∧ normalize_answer (hostResp j) = ansYes

instance winAtDecidable (utt hostResp : Nat → Text) (j : Nat) :
    Decidable (winAt utt hostResp j) :=
  decidable_of_iff
    (isGuessUtt (utt j) = true ∧ normalize_answer (hostResp j) = ansYes)
    Iff.rfl

/- Sample configurations used by witnesses and counterexamples. -/

/-- Participant name "A" (used by sample games). -/
def nameA : Text := "A".toList

/-- Participant name "B" (used by sample games). -/
def nameB : Text := "B".toList

/-- Sample surface text. -/
def sfcText : Text := "一个男人点了一碗海龟汤".toList

/-- Sample bottom text. -/
def btmText : Text := "他曾在海上漂流".toList

/-- Sample question utterance (no guess tag; asked every round). -/
def questionText : Text := "他是自杀吗".toList

/-- Sample guess utterance carrying the "[推理]" tag. -/
def guessText : Text := "[推理] 他被谋杀了".toList

/-- Sample final-guess text. -/
def finalText : Text := "最终推理内容".toList

/-- A complete puzzle dictionary (all required keys present). -/
def samplePd : PuzzleData :=
  { index := some 1, surface := some sfcText, bottom := some btmText,
    key_question := some [], story_tree := some btmText }

/-- Two-participant game used by exhaustion witnesses: names A and B,
three rounds available. -/
def w4Game : Game :=
  { surface := sfcText, bottom := btmText, key_questions := [],
    players := [nameA, nameB], max_rounds := 3 }

/-- Utterances for the exhaustion sample: always a question. -/
def w4Utt : Nat → Text := fun _ => questionText

/-- Host responses for the exhaustion sample: always "否". -/
def w4Resp : Nat → Text := fun _ => ansNo

/-- Final-guess responses for the exhaustion sample. -/
def w4Fg : Nat → Text := fun _ => finalText

/-- The game log of the exhaustion sample run. -/
def w4Log : GameLog :=
  ((run_game w4Game w4Utt w4Resp w4Fg).toOption.map Prod.fst).getD
    ⟨[], [], none, 0, 0⟩

/-- The conversation history of the exhaustion sample run. -/
def w4Hist : List RoundInfo :=
  ((run_game w4Game w4Utt w4Resp w4Fg).toOption.map Prod.snd).getD []

/-- One-participant game with a negative round ceiling. -/
def cexNegGame : Game :=
  { surface := sfcText, bottom := btmText, key_questions := [],
    players := [nameA], max_rounds := -1 }

/-- Two-participant game with ceiling 10 for the immediate-stop witness. -/
def w1Game : Game :=
  { surface := sfcText, bottom := btmText, key_questions := [],
    players := [nameA, nameB], max_rounds := 10 }

/-- Utterances for the immediate-stop witness: questions in rounds 0 and
1, a tagged guess in round 2. -/
def w1Utt : Nat → Text := fun j => if j = 2 then guessText else questionText

/-- Host responses for the immediate-stop witness: "否" for the two
questions, "是" for the guess. -/
def w1Resp : Nat → Text := fun j => if j = 2 then ansYes else ansNo

/-- Game whose first participant has the empty string as name. -/
def cexEmptyNameGame : Game :=
  { surface := sfcText, bottom := btmText, key_questions := [],
    players := [[], nameB], max_rounds := 10 }

/-- Utterances for the empty-name counterexample: a winning guess at
round 0. -/
def cexUtt : Nat → Text := fun _ => guessText

/-- Host responses for the empty-name counterexample: always "是". -/
def cexResp : Nat → Text := fun _ => ansYes

/-- Alternative final-guess generator, differing from `w4Fg`. -/
def cexFgAlt : Nat → Text := fun _ => questionText

/-- Game with duplicate participant names accepted by the constructor. -/
def dupGame : Game :=
  { surface := sfcText, bottom := btmText, key_questions := [],
    players := [nameA, nameA], max_rounds := 1 }

/-- Game with no participants and a one-round ceiling. -/
def noPlayersGame : Game :=
  { surface := sfcText, bottom := btmText, key_questions := [],
    players := [], max_rounds := 1 }

/-- Game with no participants and a zero-round ceiling. -/
def noPlayersZeroGame : Game :=
  { surface := sfcText, bottom := btmText, key_questions := [],
    players := [], max_rounds := 0 }

/-- Game with one participant and a zero-round ceiling. -/
def zeroRoundGame : Game :=
  { surface := sfcText, bottom := btmText, key_questions := [],
    players := [nameA], max_rounds := 0 }

/- Helper lemmas about the text model. -/

theorem containsSub_eq_true_iff (pat s : Text) :
    containsSub pat s = true ↔ pat <:+: s := by
  induction s with
  | nil =>
    simp only [containsSub, List.isEmpty_iff]
    constructor
    · intro h; simp [h]
    · intro h; exact List.eq_nil_of_infix_nil h
  | cons a t ih =>
    simp only [containsSub, Bool.or_eq_true, List.isPrefixOf_iff_prefix, ih]
    constructor
    · rintro (h | h)
      · exact h.isInfix
      · exact List.infix_cons h
    · intro h
      rcases List.infix_cons_iff.mp h with h | h
      · exact Or.inl h
      · exact Or.inr h

theorem containsSub_nil_eq_false (c : Char) (p : Text) :
    containsSub (c :: p) [] = false := rfl

theorem strip_nil : strip [] = [] := rfl

theorem strip_of_isEmpty (s : Text) (h : s.isEmpty = true) : strip s = [] := by
  rw [List.isEmpty_iff.mp h]; exact strip_nil

theorem hasIrrelevantKw_nil : hasIrrelevantKw [] = false := by decide

theorem hasYesKw_nil : hasYesKw [] = false := by decide

theorem hasNoKw_nil : hasNoKw [] = false := by decide

/-- The normalizer only ever returns one of the three canonical answers. -/
theorem normalize_answer_mem (s : Text) :
    normalize_answer s = ansYes ∨ normalize_answer s = ansNo ∨
      normalize_answer s = ansIrrelevant := by
  unfold normalize_answer
  split
  · exact Or.inr (Or.inr rfl)
  split
  · exact Or.inr (Or.inr rfl)
  split
  · exact Or.inl rfl
  split
  · exact Or.inr (Or.inl rfl)
  · exact Or.inr (Or.inr rfl)

/-- C2: the response normalizer returns exactly one of the three canonical
answers and follows the spec's strict priority cascade: empty or
whitespace-only input is irrelevant; any irrelevant marker wins over
affirmative and negative markers; otherwise an affirmative marker wins
over a negative one; otherwise a negative marker yields negative;
otherwise the result defaults to irrelevant. -/
theorem normalize_answer_follows_spec_priority (s : Text) :
    normalize_answer s = spec_normalize s ∧
      (normalize_answer s = ansYes ∨ normalize_answer s = ansNo ∨
        normalize_answer s = ansIrrelevant) ∧
      normalize_answer sampleBothIrr = ansIrrelevant ∧
      normalize_answer sampleYesNeg = ansYes ∧
      normalize_answer sampleWs = ansIrrelevant ∧
      normalize_answer [] = ansIrrelevant := by
  refine ⟨?_, normalize_answer_mem s, by decide, by decide, by decide,
    by decide⟩
  by_cases h0 : s = []
  · subst h0; rfl
  · have hne : s.isEmpty = false := by
      simp [List.isEmpty_iff, h0]
    by_cases h1 : strip s = []
    · simp [normalize_answer, spec_normalize, hne, h1,
        hasIrrelevantKw_nil, hasYesKw_nil, hasNoKw_nil]
    · simp [normalize_answer, spec_normalize, hne, h1]

/-- C5: the guess judgment collapses the ternary normalization to a binary
verdict: it returns "是" exactly when the response normalizes to "是", and
returns "否" exactly when the normalization is "否" or "不相关"; it never
returns "不相关". -/
theorem evaluate_guess_collapses (r : Text) :
    (evaluate_guess r = ansYes ∨ evaluate_guess r = ansNo) ∧
      (evaluate_guess r = ansYes ↔ normalize_answer r = ansYes) ∧
      (evaluate_guess r = ansNo ↔
        (normalize_answer r = ansNo ∨ normalize_answer r = ansIrrelevant)) := by
  have hmem := normalize_answer_mem r
  by_cases h : normalize_answer r = ansYes
  · have he : evaluate_guess r = ansYes := by
      unfold evaluate_guess; rw [if_pos h]
    refine ⟨Or.inl he, ⟨fun _ => h, fun _ => he⟩, ?_⟩
    rw [he, h]
    constructor
    · intro hx; exact absurd hx (by decide)
    · rintro (hx | hx) <;> exact absurd hx (by decide)
  · have he : evaluate_guess r = ansNo := by
      unfold evaluate_guess; rw [if_neg h]
    refine ⟨Or.inr he, ?_, ?_⟩
    · rw [he]
      constructor
      · intro hx; exact absurd hx (by decide)
      · intro hy; exact absurd hy h
    · refine ⟨fun _ => ?_, fun _ => he⟩
      rcases hmem with hm | hm | hm
      · exact absurd hm h
      · exact Or.inl hm
      · exact Or.inr hm

/-- C10: an utterance is classified as a guess exactly when it contains
"[推理]" or "[最终推理]" as a substring; the empty utterance is a
question; containment is not a leading-prefix test, as witnessed by an
utterance carrying the tag mid-text. -/
theorem classify_guess_by_containment (u : Text) :
    (isGuessUtt u = true ↔ kwTagGuess <:+: u ∨ kwTagFinal <:+: u) ∧
      isGuessUtt [] = false ∧
      (isGuessUtt sampleMidTag = true ∧
        kwTagGuess.isPrefixOf sampleMidTag = false ∧
        kwTagFinal.isPrefixOf sampleMidTag = false) := by
  refine ⟨?_, by decide, by decide, by decide, by decide⟩
  simp only [isGuessUtt, Bool.or_eq_true, containsSub_eq_true_iff]

theorem dictInsert_fresh {α : Type} (d : List (Text × α)) (k : Text) (v : α)
    (h : k ∉ d.map Prod.fst) : dictInsert d k v = d ++ [(k, v)] := by
  unfold dictInsert; rw [if_neg h]

theorem foldl_dictInsert_fresh {α : Type} :
    ∀ (l : List (Nat × Text)) (d : List (Text × α)) (f : Nat × Text → α),
      (l.map Prod.snd).Nodup →
      (∀ k ∈ l.map Prod.snd, k ∉ d.map Prod.fst) →
      l.foldl (fun d p => dictInsert d p.2 (f p)) d =
        d ++ l.map (fun p => (p.2, f p)) := by
  intro l
  induction l with
  | nil => intro d f _ _; simp
  | cons a t ih =>
    intro d f hnd hfresh
    simp only [List.map_cons, List.nodup_cons] at hnd
    have ha : a.2 ∉ d.map Prod.fst := by
      exact hfresh a.2 (by simp)
    simp only [List.foldl_cons, List.map_cons]
    rw [dictInsert_fresh d a.2 (f a) ha]
    rw [ih (d ++ [(a.2, f a)]) f hnd.2 ?_]
    · simp
    · intro k hk
      simp only [List.map_append, List.mem_append] at *
      rintro (hkd | hka)
      · exact hfresh k (by simp [hk]) hkd
      · simp at hka
        exact hnd.1 (hka ▸ hk)

/-- C8: a key question is marked covered exactly when the stripped
judgment response starts with the affirmative marker "是" — a strict
prefix test, unlike the normalizer's substring containment, as witnessed
by a response that the normalizer calls affirmative but coverage does not;
the aggregate rate is covered_count over the number of key questions, and
exactly 0 when the puzzle defines no key questions. -/
theorem coverage_prefix_test_and_rate (keyQs : List Text) (judge : Nat → Text)
    (hnd : keyQs.Nodup) :
    (evaluate_question_coverage keyQs judge).coverage_details =
      keyQs.enum.map
        (fun p => (p.2, (kwShi.isPrefixOf (strip (judge p.1)), judge p.1))) ∧
    (evaluate_question_coverage keyQs judge).coverage_rate =
      (if keyQs.length = 0 then 0
       else ((evaluate_question_coverage keyQs judge).covered_count : ℚ) /
         (keyQs.length : ℚ)) ∧
    (evaluate_question_coverage [] judge).coverage_rate = 0 ∧
    (coveredTest sampleYesInside = false ∧
      normalize_answer sampleYesInside = ansYes) := by
  refine ⟨?_, ?_, rfl, by decide, by decide⟩
  · unfold evaluate_question_coverage
    simp only []
    rw [foldl_dictInsert_fresh keyQs.enum []
      (fun p => (coveredTest (judge p.1), judge p.1)) ?_ ?_]
    · simp [coveredTest]
    · rw [List.enum_map_snd]; exact hnd
    · intro k _; simp
  · unfold evaluate_question_coverage
    simp only []
    cases keyQs with
    | nil => simp
    | cons a t => simp

/-- Witness for the coverage theorem: two distinct key questions, one
covered, giving rate one half. -/
theorem coverage_prefix_test_and_rate_witness :
    sampleKeyQs.Nodup ∧
      (evaluate_question_coverage sampleKeyQs sampleJudge).covered_count = 1 ∧
      (evaluate_question_coverage sampleKeyQs sampleJudge).coverage_rate
        = 1 / 2 := by
  have h := coverage_prefix_test_and_rate sampleKeyQs sampleJudge (by decide)
  have hc : (evaluate_question_coverage sampleKeyQs sampleJudge).covered_count
      = 1 := by decide
  have hl : sampleKeyQs.length = 2 := by decide
  refine ⟨by decide, hc, ?_⟩
  rw [h.2.1, hc, hl]
  norm_num

/-- C9: score parsing is five independent per-pattern matches over the
same response, each unmatched field defaulting to 0 without raising; in
particular a response with no logical-reasoning line yields 0 for that
field while the other three sub-scores and the total parse normally. -/
theorem parse_scores_independent_defaults (r : Text)
    (h : searchScore kwLogicalReasoning kwSlash10 r = none) :
    (parse_scores r).logical_reasoning = 0 ∧
    (parse_scores r).core_plot = (searchScore kwCorePlot kwSlash10 r).getD 0 ∧
    (parse_scores r).key_details =
      (searchScore kwKeyDetails kwSlash10 r).getD 0 ∧
    (parse_scores r).completeness =
      (searchScore kwCompleteness kwSlash10 r).getD 0 ∧
    (parse_scores r).score_total =
      (searchScore kwTotalScore kwSlash100 r).getD 0 ∧
    ((parse_scores sampleRubricNoLogic).core_plot = 8 ∧
      (parse_scores sampleRubricNoLogic).key_details = 7 ∧
      (parse_scores sampleRubricNoLogic).logical_reasoning = 0 ∧
      (parse_scores sampleRubricNoLogic).completeness = 9 ∧
      (parse_scores sampleRubricNoLogic).score_total = 85) := by
  refine ⟨?_, rfl, rfl, rfl, rfl, by decide, by decide, by decide, by decide,
    by decide⟩
  unfold parse_scores
  rw [h]
  rfl

/-- Witness for the score-parsing theorem at the sample rubric response
missing its logical-reasoning line. -/
theorem parse_scores_independent_defaults_witness :
    searchScore kwLogicalReasoning kwSlash10 sampleRubricNoLogic = none ∧
      (parse_scores sampleRubricNoLogic).logical_reasoning = 0 :=
  ⟨by decide,
    (parse_scores_independent_defaults sampleRubricNoLogic (by decide)).1⟩

/- Helper lemmas about round records and the loop. -/

theorem evaluate_guess_eq_ansYes_iff (r : Text) :
    evaluate_guess r = ansYes ↔ normalize_answer r = ansYes := by
  constructor
  · intro he
    by_contra hn
    rw [evaluate_guess, if_neg hn] at he
    exact absurd he (by decide)
  · intro hy
    rw [evaluate_guess, if_pos hy]

theorem isGuessUtt_ne_nil (u : Text) (h : isGuessUtt u = true) : u ≠ [] := by
  intro hnil
  rw [hnil] at h
  exact absurd h (by decide)

theorem mkRoundInfo_round (cur : Nat) (p u r : Text) :
    (mkRoundInfo cur p u r).round = cur + 1 := by
  unfold mkRoundInfo; split <;> rfl

theorem mkRoundInfo_player (cur : Nat) (p u r : Text) :
    (mkRoundInfo cur p u r).player = p := by
  unfold mkRoundInfo; split <;> rfl

theorem mkRoundInfo_question (cur : Nat) (p u r : Text) :
    (mkRoundInfo cur p u r).question = u := by
  unfold mkRoundInfo; split <;> rfl

theorem mkRoundInfo_winning_iff (cur : Nat) (p u r : Text) :
    isWinningRound (mkRoundInfo cur p u r) = true ↔
      (isGuessUtt u = true ∧ normalize_answer r = ansYes) := by
  cases hg : isGuessUtt u with
  | false =>
    simp [isWinningRound, mkRoundInfo, hg]
  | true =>
    simp [isWinningRound, mkRoundInfo, hg, evaluate_guess_eq_ansYes_iff]

/-- Structural facts about a completed loop: history equals the recorded
rounds, at most `fuel` rounds are recorded (exactly `fuel` when no winner
was found), round indices are contiguous from `cur + 1`, and a winning
round is the last one recorded. -/
theorem runLoop_ok_props (players : List Text) (utt resp : Nat → Text) :
    ∀ fuel cur idx rs hist w,
      runLoop players utt resp cur idx fuel = .ok (rs, hist, w) →
      hist = rs ∧ rs.length ≤ fuel ∧ (w = none → rs.length = fuel) ∧
      (∀ i (hi : i < rs.length), (rs.get ⟨i, hi⟩).round = cur + i + 1) ∧
      (∀ i (hi : i < rs.length), isWinningRound (rs.get ⟨i, hi⟩) = true →
        i + 1 = rs.length ∧ w ≠ none) := by
  intro fuel
  induction fuel with
  | zero =>
    intro cur idx rs hist w h
    simp only [runLoop, Except.ok.injEq, Prod.mk.injEq] at h
    obtain ⟨h1, h2, h3⟩ := h
    subst h1; subst h2; subst h3
    refine ⟨rfl, Nat.le_refl 0, fun _ => rfl, ?_, ?_⟩
    · intro i hi; exact absurd hi (Nat.not_lt_zero i)
    · intro i hi; exact absurd hi (Nat.not_lt_zero i)
  | succ n ih =>
    intro cur idx rs hist w h
    rw [runLoop] at h
    cases hidx : players[idx]? with
    | none => rw [hidx] at h; cases h
    | some pname =>
      rw [hidx] at h
      simp only [] at h
      by_cases hwin :
          isWinningRound (mkRoundInfo cur pname (utt cur) (resp cur)) = true
      · rw [isWinningRound] at hwin
        rw [if_pos hwin] at h
        simp only [Except.ok.injEq, Prod.mk.injEq] at h
        obtain ⟨h1, h2, h3⟩ := h
        subst h1; subst h2; subst h3
        refine ⟨rfl, by simp only [List.length_singleton]; omega,
          by intro hw; exact absurd hw (Option.some_ne_none _), ?_, ?_⟩
        · intro i hi
          have hi0 : i = 0 := by simp only [List.length_singleton] at hi; omega
          subst hi0
          simp only [List.get_eq_getElem, List.getElem_cons_zero,
            mkRoundInfo_round]
        · intro i hi _
          have hi0 : i = 0 := by simp only [List.length_singleton] at hi; omega
          subst hi0
          exact ⟨by simp, by simp⟩
      · rw [isWinningRound] at hwin
        rw [if_neg hwin] at h
        cases hrec : runLoop players utt resp (cur + 1)
            ((idx + 1) % players.length) n with
        | error e => rw [hrec] at h; cases h
        | ok trip =>
          obtain ⟨rs', hist', w'⟩ := trip
          rw [hrec] at h
          simp only [Except.ok.injEq, Prod.mk.injEq] at h
          obtain ⟨h1, h2, h3⟩ := h
          subst h1; subst h2; subst h3
          obtain ⟨ih1, ih2, ih3, ih4, ih5⟩ :=
            ih (cur + 1) ((idx + 1) % players.length) rs' hist' w' hrec
          refine ⟨by rw [ih1], by simp only [List.length_cons]; omega,
            ?_, ?_, ?_⟩
          · intro hw
            simp only [List.length_cons, ih3 hw]
          · intro i hi
            cases i with
            | zero => simp [mkRoundInfo_round]
            | succ j =>
              simp only [List.length_cons] at hi
              have hj : j < rs'.length := by omega
              have := ih4 j hj
              simp only [List.get_eq_getElem] at this ⊢
              simp only [List.getElem_cons_succ]
              rw [this]
              omega
          · intro i hi hwr
            cases i with
            | zero =>
              simp only [List.get_eq_getElem, List.getElem_cons_zero] at hwr
              rw [← isWinningRound] at hwin
              exact absurd hwr (by simp [hwin])
            | succ j =>
              simp only [List.length_cons] at hi
              have hj : j < rs'.length := by omega
              have hwr' : isWinningRound (rs'.get ⟨j, hj⟩) = true := by
                simp only [List.get_eq_getElem] at hwr ⊢
                simpa using hwr
              obtain ⟨hlast, hwne⟩ := ih5 j hj hwr'
              exact ⟨by simp only [List.length_cons]; omega, hwne⟩

/-- The actor of the i-th round recorded by the loop is the participant at
list index `(idx + i) mod n`. -/
theorem runLoop_ok_player (players : List Text) (utt resp : Nat → Text)
    (hn : 0 < players.length) :
    ∀ fuel cur idx rs hist w, idx < players.length →
      runLoop players utt resp cur idx fuel = .ok (rs, hist, w) →
      ∀ i (hi : i < rs.length),
        players[(idx + i) % players.length]? =
          some ((rs.get ⟨i, hi⟩).player) := by
  intro fuel
  induction fuel with
  | zero =>
    intro cur idx rs hist w _ h
    simp only [runLoop, Except.ok.injEq, Prod.mk.injEq] at h
    obtain ⟨h1, h2, h3⟩ := h
    subst h1
    intro i hi
    exact absurd hi (Nat.not_lt_zero i)
  | succ n ih =>
    intro cur idx rs hist w hidxlt h
    rw [runLoop] at h
    have hidx : players[idx]? = some players[idx] :=
      List.getElem?_eq_getElem hidxlt
    rw [hidx] at h
    simp only [] at h
    by_cases hwin :
        ((mkRoundInfo cur players[idx] (utt cur) (resp cur)).is_guess &&
          (mkRoundInfo cur players[idx] (utt cur) (resp cur)).guess_correct)
          = true
    · rw [if_pos hwin] at h
      simp only [Except.ok.injEq, Prod.mk.injEq] at h
      obtain ⟨h1, h2, h3⟩ := h
      subst h1
      intro i hi
      have hi0 : i = 0 := by simp only [List.length_singleton] at hi; omega
      subst hi0
      simp only [List.get_eq_getElem, List.getElem_cons_zero,
        mkRoundInfo_player, Nat.add_zero, Nat.mod_eq_of_lt hidxlt]
      exact hidx
    · rw [if_neg hwin] at h
      cases hrec : runLoop players utt resp (cur + 1)
          ((idx + 1) % players.length) n with
      | error e => rw [hrec] at h; cases h
      | ok trip =>
        obtain ⟨rs', hist', w'⟩ := trip
        rw [hrec] at h
        simp only [Except.ok.injEq, Prod.mk.injEq] at h
        obtain ⟨h1, h2, h3⟩ := h
        subst h1
        intro i hi
        cases i with
        | zero =>
          simp only [List.get_eq_getElem, List.getElem_cons_zero,
            mkRoundInfo_player, Nat.add_zero, Nat.mod_eq_of_lt hidxlt]
          exact hidx
        | succ j =>
          simp only [List.length_cons] at hi
          have hj : j < rs'.length := by omega
          have := ih (cur + 1) ((idx + 1) % players.length) rs' hist' w'
            (Nat.mod_lt _ hn) hrec j hj
          have harith : ((idx + 1) % players.length + j) % players.length =
              (idx + (j + 1)) % players.length := by
            rw [Nat.mod_add_mod]
            congr 1
            omega
          rw [harith] at this
          rw [this]
          simp only [List.get_eq_getElem, List.getElem_cons_succ]

/-- When the first winning round is the k-th one dispatched by the loop
(0-based, within fuel), the loop stops there: it records exactly k + 1
rounds and reports the winner as the player at index `(idx + k) mod n`
with the winning utterance. -/
theorem runLoop_first_win (players : List Text) (utt resp : Nat → Text)
    (hn : 0 < players.length) :
    ∀ k cur idx fuel, idx < players.length → k < fuel →
      (∀ j, j < k → ¬ winAt utt resp (cur + j)) →
      winAt utt resp (cur + k) →
      ∃ rs pname,
        players[(idx + k) % players.length]? = some pname ∧
        runLoop players utt resp cur idx fuel =
          .ok (rs, rs, some (pname, utt (cur + k))) ∧
        rs.length = k + 1 := by
  intro k
  induction k with
  | zero =>
    intro cur idx fuel hidxlt hf _ hw
    cases fuel with
    | zero => omega
    | succ n =>
      have hidx : players[idx]? = some players[idx] :=
        List.getElem?_eq_getElem hidxlt
      rw [Nat.add_zero] at hw
      have hwin : isWinningRound
          (mkRoundInfo cur players[idx] (utt cur) (resp cur)) = true :=
        (mkRoundInfo_winning_iff cur players[idx] (utt cur) (resp cur)).mpr hw
      rw [isWinningRound] at hwin
      refine ⟨[mkRoundInfo cur players[idx] (utt cur) (resp cur)],
        players[idx], ?_, ?_, rfl⟩
      · rw [Nat.add_zero, Nat.mod_eq_of_lt hidxlt]
        exact hidx
      · rw [runLoop, hidx]
        simp only [Nat.add_zero]
        rw [if_pos hwin]
  | succ k ih =>
    intro cur idx fuel hidxlt hf hpre hw
    cases fuel with
    | zero => omega
    | succ n =>
      have hidx : players[idx]? = some players[idx] :=
        List.getElem?_eq_getElem hidxlt
      have hnw0 : ¬ winAt utt resp cur := by
        have := hpre 0 (by omega)
        simpa using this
      have hwin0 : ((mkRoundInfo cur players[idx] (utt cur)
          (resp cur)).is_guess &&
          (mkRoundInfo cur players[idx] (utt cur) (resp cur)).guess_correct)
          ≠ true := by
        intro hc
        exact hnw0 ((mkRoundInfo_winning_iff cur players[idx] (utt cur)
          (resp cur)).mp hc)
      obtain ⟨rs', pname, hp1, hp2, hp3⟩ :=
        ih (cur + 1) ((idx + 1) % players.length) n (Nat.mod_lt _ hn)
          (by omega)
          (fun j hj => by
            have := hpre (j + 1) (by omega)
            have harith : cur + (j + 1) = cur + 1 + j := by omega
            rwa [harith] at this)
          (by
            have harith : cur + (k + 1) = cur + 1 + k := by omega
            rwa [harith] at hw)
      refine ⟨mkRoundInfo cur players[idx] (utt cur) (resp cur) :: rs',
        pname, ?_, ?_, by simp [hp3]⟩
      · have harith : ((idx + 1) % players.length + k) % players.length =
            (idx + (k + 1)) % players.length := by
          rw [Nat.mod_add_mod]
          congr 1
          omega
        rwa [harith] at hp1
      · rw [runLoop, hidx]
        simp only [] 
        rw [if_neg hwin0, hp2]
        have harith : cur + 1 + k = cur + (k + 1) := by omega
        rw [harith]

/-- When no round within the fuel wins, the loop runs to exhaustion and
records exactly `fuel` rounds with no winner. -/
theorem runLoop_exhaust (players : List Text) (utt resp : Nat → Text)
    (hn : 0 < players.length) :
    ∀ fuel cur idx, idx < players.length →
      (∀ j, j < fuel → ¬ winAt utt resp (cur + j)) →
      ∃ rs, runLoop players utt resp cur idx fuel = .ok (rs, rs, none) ∧
        rs.length = fuel := by
  intro fuel
  induction fuel with
  | zero =>
    intro cur idx _ _
    exact ⟨[], rfl, rfl⟩
  | succ n ih =>
    intro cur idx hidxlt hnw
    have hidx : players[idx]? = some players[idx] :=
      List.getElem?_eq_getElem hidxlt
    have hnw0 : ¬ winAt utt resp cur := by
      have := hnw 0 (by omega)
      simpa using this
    have hwin0 : ((mkRoundInfo cur players[idx] (utt cur)
        (resp cur)).is_guess &&
        (mkRoundInfo cur players[idx] (utt cur) (resp cur)).guess_correct)
        ≠ true := by
      intro hc
      exact hnw0 ((mkRoundInfo_winning_iff cur players[idx] (utt cur)
        (resp cur)).mp hc)
    obtain ⟨rs', hrec, hlen⟩ :=
      ih (cur + 1) ((idx + 1) % players.length) (Nat.mod_lt _ hn)
        (fun j hj => by
          have := hnw (j + 1) (by omega)
          have harith : cur + (j + 1) = cur + 1 + j := by omega
          rwa [harith] at this)
    refine ⟨mkRoundInfo cur players[idx] (utt cur) (resp cur) :: rs',
      ?_, by simp [hlen]⟩
    rw [runLoop, hidx]
    simp only []
    rw [if_neg hwin0, hrec]

/-- With distinct participant names, the end-of-game dictionary is one
entry per participant, in configured order, holding each model response
verbatim. -/
theorem finalGuessDict_nodup (players : List Text) (fg : Nat → Text)
    (hnd : players.Nodup) :
    finalGuessDict players fg =
      players.enum.map (fun p => (p.2, fg p.1)) := by
  unfold finalGuessDict
  rw [foldl_dictInsert_fresh players.enum [] (fun p => fg p.1) ?_ ?_]
  · simp
  · rw [List.enum_map_snd]; exact hnd
  · intro k _; simp

/-- Inversion of `run_game`: a successful run comes from a successful
loop, the log's rounds are the loop's rounds, `total_rounds` counts them,
`max_rounds` is copied from the game, and the winner field is the loop
winner's name. -/
theorem run_game_ok_loop (g : Game) (utt resp fg : Nat → Text)
    (log : GameLog) (hist : List RoundInfo)
    (h : run_game g utt resp fg = .ok (log, hist)) :
    ∃ w, runLoop g.players utt resp 0 0 g.max_rounds.toNat =
        .ok (log.rounds, hist, w) ∧
      log.total_rounds = log.rounds.length ∧
      log.max_rounds = g.max_rounds ∧
      log.winner = w.map Prod.fst := by
  unfold run_game at h
  cases hloop : runLoop g.players utt resp 0 0 g.max_rounds.toNat with
  | error e => rw [hloop] at h; cases h
  | ok trip =>
    rw [hloop] at h
    obtain ⟨rs, hl, w⟩ := trip
    cases w with
    | none =>
      simp only [Except.ok.injEq, Prod.mk.injEq] at h
      obtain ⟨h1, h2⟩ := h
      subst h2
      subst h1
      exact ⟨none, rfl, rfl, rfl, rfl⟩
    | some pw =>
      obtain ⟨wname, cg⟩ := pw
      simp only [] at h
      by_cases hempty : wname = []
      · rw [if_pos hempty] at h
        simp only [Except.ok.injEq, Prod.mk.injEq] at h
        obtain ⟨h1, h2⟩ := h
        subst h2
        subst h1
        exact ⟨some (wname, cg), rfl, rfl, rfl, rfl⟩
      · rw [if_neg hempty] at h
        simp only [Except.ok.injEq, Prod.mk.injEq] at h
        obtain ⟨h1, h2⟩ := h
        subst h2
        subst h1
        exact ⟨some (wname, cg), rfl, rfl, rfl, rfl⟩

/-- C4: in every successfully completed game with at least one
participant, the actor of the round recorded at 0-based position i is the
participant at configured index i mod n — the rotation advances after
every round, including guess rounds judged negative. -/
theorem turn_rotation_mod_participants (g : Game) (utt resp fg : Nat → Text)
    (log : GameLog) (hist : List RoundInfo)
    (hn : 0 < g.players.length)
    (hrun : run_game g utt resp fg = .ok (log, hist)) :
    ∀ i, i < log.rounds.length →
      log.rounds[i]?.map RoundInfo.player =
        g.players[i % g.players.length]? := by
  obtain ⟨w, hloop, _, _, _⟩ := run_game_ok_loop g utt resp fg log hist hrun
  intro i hi
  have h := runLoop_ok_player g.players utt resp hn g.max_rounds.toNat 0 0
    log.rounds hist w hn hloop i hi
  rw [Nat.zero_add] at h
  rw [List.getElem?_eq_getElem hi, h]
  simp [List.get_eq_getElem]

/-- Witness for the rotation theorem: in the two-player exhaustion sample
the third round (index 2) is played by participant A again. -/
theorem turn_rotation_mod_participants_witness :
    (0 < w4Game.players.length) ∧
      run_game w4Game w4Utt w4Resp w4Fg = .ok (w4Log, w4Hist) ∧
      (2 < w4Log.rounds.length) ∧
      w4Log.rounds[2]?.map RoundInfo.player =
        w4Game.players[2 % w4Game.players.length]? :=
  ⟨by decide, by rfl, by decide,
    turn_rotation_mod_participants w4Game w4Utt w4Resp w4Fg w4Log w4Hist
      (by decide) (by rfl) 2 (by decide)⟩

/-- C6 (amended): in every successfully completed game the recorded round
indices are contiguous starting at 1, a winning-guess round is the
chronologically last recorded round (hence at most one exists), the
conversation history has exactly one entry per recorded round,
total_rounds counts the recorded rounds, and total_rounds never exceeds
max(max_rounds, 0) — for a negative max_rounds ceiling the run still
completes with 0 rounds, which exceeds the (negative) ceiling itself. -/
theorem game_record_invariants (g : Game) (utt resp fg : Nat → Text)
    (log : GameLog) (hist : List RoundInfo)
    (hrun : run_game g utt resp fg = .ok (log, hist)) :
    (∀ i (hi : i < log.rounds.length),
      (log.rounds.get ⟨i, hi⟩).round = i + 1) ∧
    (∀ i (hi : i < log.rounds.length),
      isWinningRound (log.rounds.get ⟨i, hi⟩) = true →
        i + 1 = log.rounds.length) ∧
    hist.length = log.rounds.length ∧
    log.total_rounds = log.rounds.length ∧
    (log.total_rounds : Int) ≤ log.max_rounds ⊔ 0 := by
  obtain ⟨w, hloop, htot, hmax, _⟩ := run_game_ok_loop g utt resp fg log hist
    hrun
  obtain ⟨hh, hle, _, hidx, hlast⟩ := runLoop_ok_props g.players utt resp
    g.max_rounds.toNat 0 0 log.rounds hist w hloop
  refine ⟨?_, ?_, ?_, htot, ?_⟩
  · intro i hi
    have := hidx i hi
    simpa using this
  · intro i hi hw
    exact (hlast i hi hw).1
  · rw [hh]
  · rw [htot, hmax]
    calc (log.rounds.length : Int) ≤ (g.max_rounds.toNat : Int) := by
          exact_mod_cast hle
      _ = g.max_rounds ⊔ 0 := Int.toNat_eq_max g.max_rounds

/-- Witness for the game-record invariants at the exhaustion sample. -/
theorem game_record_invariants_witness :
    run_game w4Game w4Utt w4Resp w4Fg = .ok (w4Log, w4Hist) ∧
      w4Hist.length = w4Log.rounds.length ∧
      (w4Log.total_rounds : Int) ≤ w4Log.max_rounds ⊔ 0 :=
  ⟨by rfl,
    (game_record_invariants w4Game w4Utt w4Resp w4Fg w4Log w4Hist
      (by rfl)).2.2.1,
    (game_record_invariants w4Game w4Utt w4Resp w4Fg w4Log w4Hist
      (by rfl)).2.2.2.2⟩

/-- C6 counterexample: the constructor accepts max_rounds = -1, the run
completes with total_rounds = 0, and 0 exceeds the recorded max_rounds,
refuting the unconditional claim that total_rounds never exceeds
max_rounds. -/
theorem game_record_invariants_counterexample :
    mkGame samplePd (-1) (some [⟨nameA, none⟩]) = .ok cexNegGame ∧
      ((run_game cexNegGame w4Utt w4Resp w4Fg).toOption.map
        (fun p => (p.1.total_rounds, p.1.max_rounds))) = some (0, -1) ∧
      ¬ ((0 : Int) ≤ -1) :=
  ⟨by rfl, by rfl, by decide⟩

/-- C7: when no round within the ceiling wins, the game runs to round
exhaustion and then asks every participant once, in configured order, for
a final guess: with distinct names, final_guesses holds exactly one entry
per participant, keyed by name, with the i-th model response stored
verbatim — never judged by the coordinator. -/
theorem exhaustion_all_final_guesses (g : Game) (utt resp fg : Nat → Text)
    (hn : 0 < g.players.length) (hnd : g.players.Nodup)
    (hnw : ∀ j, j < g.max_rounds.toNat → ¬ winAt utt resp j) :
    (run_game g utt resp fg).map
        (fun p => (p.1.winner, p.1.final_guesses, p.1.rounds.length)) =
      .ok (none, g.players.enum.map (fun q => (q.2, fg q.1)),
        g.max_rounds.toNat) := by
  obtain ⟨rs, hloop, hlen⟩ := runLoop_exhaust g.players utt resp hn
    g.max_rounds.toNat 0 0 hn (fun j hj => by simpa using hnw j hj)
  unfold run_game
  rw [hloop]
  simp only [Except.map]
  rw [finalGuessDict_nodup g.players fg hnd, hlen]

/-- Witness for the exhaustion theorem: the two-player sample with three
question rounds and no winning guess. -/
theorem exhaustion_all_final_guesses_witness :
    (0 < w4Game.players.length) ∧ w4Game.players.Nodup ∧
      (∀ j, j < w4Game.max_rounds.toNat → ¬ winAt w4Utt w4Resp j) ∧
      (run_game w4Game w4Utt w4Resp w4Fg).map
          (fun p => (p.1.winner, p.1.final_guesses, p.1.rounds.length)) =
        .ok (none, w4Game.players.enum.map (fun q => (q.2, w4Fg q.1)),
          w4Game.max_rounds.toNat) :=
  ⟨by decide, by decide, by decide,
    exhaustion_all_final_guesses w4Game w4Utt w4Resp w4Fg (by decide)
      (by decide) (by decide)⟩

/-- C1 (amended): with at least one participant, all participant names
nonempty, and the first winning guess occurring at 0-based round index k
within the ceiling, the game stops at that round: total_rounds = k + 1,
exactly k + 1 rounds are recorded, the winner is the participant at index
k mod n, final_guesses holds exactly that winner's entry mapped to the
winning utterance itself, and no further text-generation requests are
issued for non-winners (the run result does not depend on the final-guess
generator at all). -/
theorem first_winning_guess_stops_game (g : Game) (utt resp fg : Nat → Text)
    (k : Nat) (hn : 0 < g.players.length)
    (hnames : ∀ p ∈ g.players, p ≠ [])
    (hk : k < g.max_rounds.toNat)
    (hpre : ∀ j, j < k → ¬ winAt utt resp j)
    (hwin : winAt utt resp k) :
    (run_game g utt resp fg).map
        (fun p => (p.1.total_rounds, p.1.rounds.length, p.1.winner,
          p.1.final_guesses)) =
      .ok (k + 1, k + 1, some (g.players[k % g.players.length]?.getD []),
        [(g.players[k % g.players.length]?.getD [], utt k)]) ∧
    (∀ fg2 : Nat → Text, run_game g utt resp fg2 = run_game g utt resp fg) := by
  obtain ⟨rs, pname, hp1, hp2, hp3⟩ :=
    runLoop_first_win g.players utt resp hn k 0 0 g.max_rounds.toNat hn hk
      (fun j hj => by simpa using hpre j hj)
      (by simpa using hwin)
  rw [Nat.zero_add] at hp1 hp2
  have hpname : g.players[k % g.players.length]?.getD [] = pname := by
    rw [hp1]; rfl
  have hmem : pname ∈ g.players := by
    obtain ⟨hlt, he⟩ := List.getElem?_eq_some.mp hp1
    exact he ▸ List.getElem_mem hlt
  have hne : pname ≠ [] := hnames pname hmem
  have hutt : ¬ (utt k = []) := isGuessUtt_ne_nil (utt k) hwin.1
  constructor
  · unfold run_game
    rw [hp2]
    simp only []
    rw [if_neg hne, if_neg hutt]
    simp only [Except.map, hp3, hpname]
  · intro fg2
    unfold run_game
    rw [hp2]
    simp only [if_neg hne]

/-- Witness for the immediate-stop theorem: two players, ceiling 10, the
first two rounds are questions, the guess at round index 2 wins. -/
theorem first_winning_guess_stops_game_witness :
    (0 < w1Game.players.length) ∧ winAt w1Utt w1Resp 2 ∧
      (run_game w1Game w1Utt w1Resp w4Fg).map
          (fun p => (p.1.total_rounds, p.1.rounds.length, p.1.winner,
            p.1.final_guesses)) =
        .ok (3, 3, some (w1Game.players[2 % w1Game.players.length]?.getD []),
          [(w1Game.players[2 % w1Game.players.length]?.getD [], w1Utt 2)]) :=
  ⟨by decide, by decide,
    (first_winning_guess_stops_game w1Game w1Utt w1Resp w4Fg 2 (by decide)
      (by decide) (by decide) (by decide) (by decide)).1⟩

/-- C1 counterexample: a configuration with max_rounds = 10 whose winner
(the empty-named participant) makes an affirmative-judged guess at round
1; the game does stop there, but Python truthiness treats the empty
winner name as "no winner", so final_guesses receives one entry per
participant (two, not one) and the result depends on the final-guess
generator — further text-generation requests are issued for the
non-winner. -/
theorem first_winning_guess_stops_game_counterexample :
    mkGame samplePd 10 (some [⟨[], none⟩, ⟨nameB, none⟩]) =
        .ok cexEmptyNameGame ∧
      winAt cexUtt cexResp 0 ∧
      ((run_game cexEmptyNameGame cexUtt cexResp w4Fg).toOption.map
        (fun p => (p.1.total_rounds, p.1.winner, p.1.final_guesses.length)))
        = some (1, some [], 2) ∧
      ((run_game cexEmptyNameGame cexUtt cexResp w4Fg).toOption ≠
        (run_game cexEmptyNameGame cexUtt cexResp cexFgAlt).toOption) :=
  ⟨by rfl, by decide, by rfl, by decide⟩

/-- C3 counterexample: a configuration with duplicate participant names
is accepted by the constructor, runs without any failure, and plays a
round — refuting the claim that such configurations fail fast before any
round executes. -/
theorem construction_fail_fast_counterexample :
    mkGame samplePd 1 (some [⟨nameA, none⟩, ⟨nameA, none⟩]) = .ok dupGame ∧
      ¬ dupGame.players.Nodup ∧
      (run_game dupGame w4Utt w4Resp w4Fg).isOk = true ∧
      ((run_game dupGame w4Utt w4Resp w4Fg).toOption.map
        (fun p => p.1.rounds.length)) = some 1 :=
  ⟨by rfl, by decide, by rfl, by rfl⟩

/-- C3 (amended): only a puzzle dictionary missing a required field
(surface, bottom, key_question or story_tree) makes construction fail
fast; non-positive max_rounds, duplicate participant names and zero
participants are accepted: duplicate names play rounds normally,
max_rounds = 0 completes with no rounds (one final guess per player),
zero participants with a positive ceiling raises only when the first
round is attempted, and zero participants with a zero ceiling completes
without error. -/
theorem construction_fail_fast_only_puzzle_fields :
    (∀ (pd : PuzzleData) (mr : Int) (cfg : Option (List PlayerConfig)),
      (mkGame pd mr cfg).isOk = true ↔
        (pd.surface.isSome = true ∧ pd.bottom.isSome = true ∧
          pd.key_question.isSome = true ∧ pd.story_tree.isSome = true)) ∧
    ((run_game dupGame w4Utt w4Resp w4Fg).toOption.map
      (fun p => p.1.rounds.length)) = some 1 ∧
    (mkGame samplePd 0 (some [⟨nameA, none⟩]) = .ok zeroRoundGame) ∧
    ((run_game zeroRoundGame w4Utt w4Resp w4Fg).toOption.map
      (fun p => (p.1.rounds.length, p.1.final_guesses.length)))
      = some (0, 1) ∧
    (mkGame samplePd 1 (some []) = .ok noPlayersGame) ∧
    (run_game noPlayersGame w4Utt w4Resp w4Fg).isOk = false ∧
    (mkGame samplePd 0 (some []) = .ok noPlayersZeroGame) ∧
    (run_game noPlayersZeroGame w4Utt w4Resp w4Fg).isOk = true := by
  refine ⟨?_, by rfl, by rfl, by rfl, by rfl, by rfl, by rfl, by rfl⟩
  intro pd mr cfg
  obtain ⟨i, s, b, kq, st⟩ := pd
  cases s <;> cases b <;> cases kq <;> cases st <;>
    simp [mkGame, Except.isOk, Except.toBool]
